import Mathlib

/-!
A shallow embedding of the core of `amul_watch.py`: the region-rule resolver
(`alias_from_rules`), the retrying product fetcher (`with_retries`,
`fetch_by_aliases`), the availability alert decider
(`should_alert_availability`), and the per-alias processing loop of `main`
(snapshot diffing, history append, state save, exit codes).

Modelling conventions:
- Python strings are Lean `String`s, but the Python operations used by the
  source (`.strip()`, `.lower()`, `.startswith`, lexicographic `<=`) are
  implemented here over `String.data` so that they evaluate by kernel
  reduction.
- JSON scalar record fields are `Option JVal`; a missing dictionary key is
  `none`, and Python truthiness is `truthy`.
- Network requests are nondeterministic in the source; they are modelled by
  oracles `Nat → Except String _` giving the outcome of each numbered
  attempt.  `time.sleep`-based backoff has no observable effect and is
  dropped.
- The ambient timestamp field `ts` of a history entry, the rendered alert
  text blocks, log output, and the response metadata fields `messages` and
  `fileBaseUrl` are not modelled; the list `alertKeys` records one entry per
  accumulated alert block.
-/

namespace AmulWatch

/-- A JSON scalar value as probed by the Python source with `dict.get`. -/
inductive JVal where
  | null
  | bool (b : Bool)
  | num (n : Int)
  | str (s : String)
deriving DecidableEq

/-- Python truthiness of an optional JSON scalar (`bool(x)`); a missing key
(`none`) and `None` are falsy, `0` and `""` are falsy. -/
def truthy : Option JVal → Bool
  | none => false
  | some JVal.null => false
  | some (JVal.bool b) => b
  | some (JVal.num n) => decide (n ≠ 0)
  | some (JVal.str s) => decide (s ≠ "")

/-- Python truthiness of an optional string. -/
def truthyStr : Option String → Bool
  | none => false
  | some s => decide (s ≠ "")

/-- Python `a or b` on optional JSON scalars. -/
def pyOr (a b : Option JVal) : Option JVal := if truthy a then a else b

/-- Python `a or b` on optional strings. -/
def pyOrStr (a b : Option String) : Option String := if truthyStr a then a else b

/-- Python `str.strip()`: drop whitespace from both ends. -/
def pyStrip (s : String) : String :=
  ⟨((s.data.dropWhile Char.isWhitespace).reverse.dropWhile Char.isWhitespace).reverse⟩

/-- Python `str.lower()`. -/
def pyLower (s : String) : String := ⟨s.data.map Char.toLower⟩

/-- Python `s.startswith(p)`. -/
def startswith (s p : String) : Bool := p.data.isPrefixOf s.data

/-- Lexicographic (code-point) order on character lists, as Python compares
strings. -/
def lexLe : List Char → List Char → Bool
  | [], _ => true
  | _ :: _, [] => false
  | a :: as, b :: bs => if a < b then true else if a = b then lexLe as bs else false

/-- Python `a <= b` on strings. -/
def pyLe (a b : String) : Bool := lexLe a.data b.data

/-- `a.strip().lower()`: the normalised tracking key used by `main`. -/
def normKey (a : String) : String := pyLower (pyStrip a)

/-- The per-key snapshot stored in `state["tracked"][key]` (main, lines
489-494). -/
structure Snapshot where
  available : Option JVal
  inventory_quantity : Option JVal
  our_price : Option JVal
  price : Option JVal
deriving DecidableEq

/-- The fields of a product record from the catalog API that the alert
pipeline reads. -/
structure ProductRecord where
  «alias» : Option String
  name : Option String
  available : Option JVal
  inventory_quantity : Option JVal
  our_price : Option JVal
  price : Option JVal
deriving DecidableEq

/-- An entry of `state["history"]` (main, lines 475-485); the ambient
timestamp field is not modelled. -/
structure HistoryEntry where
  «alias» : Option String
  name : Option String
  changes : List String
  snapshot_available : Option JVal
  snapshot_inventory_quantity : Option JVal
  snapshot_price : Option JVal
deriving DecidableEq

/-- `prev.get("available")` where `prev = state["tracked"].get(key, {})`:
a missing snapshot reads as a missing field. -/
def snapAvailable : Option Snapshot → Option JVal
  | none => none
  | some s => s.available

/-- `should_alert_availability(prev, cur)`:
`bool(cur.get("available")) and not bool(prev.get("available"))`. -/
def should_alert_availability (prev : Option Snapshot) (cur : ProductRecord) : Bool :=
  truthy cur.available && !truthy (snapAvailable prev)

/-- `do_alert = should_alert_availability(prev, cur) or FORCE_ALERT`. -/
def do_alert (force : Bool) (prev : Option Snapshot) (cur : ProductRecord) : Bool :=
  should_alert_availability prev cur || force

/-- `change_text` of main, line 459: the forced-run sentinel is used only
when the availability predicate did not itself fire. -/
def change_text (force : Bool) (prev : Option Snapshot) (cur : ProductRecord) : String :=
  if force && !should_alert_availability prev cur then "FORCE_ALERT" else "✅ Now AVAILABLE"

/-- The snapshot written to `state["tracked"][key]` for a fetched record. -/
def curSnapshot (cur : ProductRecord) : Snapshot :=
  { available := cur.available
    inventory_quantity := cur.inventory_quantity
    our_price := cur.our_price
    price := cur.price }

/-- The history entry appended by main (lines 475-485) when an alert fires. -/
def mkHistoryEntry (force : Bool) (prev : Option Snapshot) (cur : ProductRecord) : HistoryEntry :=
  { «alias» := cur.«alias»
    name := pyOrStr cur.name cur.«alias»
    changes := [change_text force prev cur]
    snapshot_available := cur.available
    snapshot_inventory_quantity := cur.inventory_quantity
    snapshot_price := pyOr cur.our_price cur.price }

/-- The tracking key a history entry refers to. -/
def entryKey (e : HistoryEntry) : String := normKey (e.«alias».getD "")

/-- `(p.get("alias") or "").strip().lower()`: the key a fetched record is
indexed under in `by_alias`. -/
def recordKey (p : ProductRecord) : String := normKey (p.«alias».getD "")

/-- `by_alias.get(key)`: the dict comprehension over `items` keeps, for each
key, the last record mapping to it. -/
def byAlias (items : List ProductRecord) (key : String) : Option ProductRecord :=
  (items.filter (fun p => recordKey p == key)).getLast?

/-- The persisted state (`tracked` and `history`) together with the
accumulated alert blocks of the current run (`alertKeys`, one key per
block). -/
structure RunState where
  tracked : String → Option Snapshot
  history : List HistoryEntry
  alertKeys : List String

/-- `state["tracked"][key] = v`. -/
def updateTracked (t : String → Option Snapshot) (k : String) (v : Snapshot) :
    String → Option Snapshot :=
  fun x => if x = k then some v else t x

/-- One iteration of the `for a in TARGET_ALIASES` loop of main
(lines 443-494). -/
def processAlias (force : Bool) (items : List ProductRecord) (st : RunState) (a : String) :
    RunState :=
  let key := normKey a
  match byAlias items key with
  | none => st
  | some cur =>
    let prev := st.tracked key
    let st1 :=
      if do_alert force prev cur then
        { st with
          history := st.history ++ [mkHistoryEntry force prev cur]
          alertKeys := st.alertKeys ++ [key] }
      else st
    { st1 with tracked := updateTracked st1.tracked key (curSnapshot cur) }

/-- The whole per-alias loop of main. -/
def runLoop (force : Bool) (aliases : List String) (items : List ProductRecord)
    (st : RunState) : RunState :=
  aliases.foldl (processAlias force items) st

/-- The requested aliases that are present in the fetch result. -/
def presentAliases (aliases : List String) (items : List ProductRecord) : List String :=
  aliases.filter (fun a => (byAlias items (normKey a)).isSome)

/-- Dictionary lookup (association list, first binding wins as in a JSON
object with unique keys). -/
def lookupDict (d : List (String × String)) (k : String) : Option String :=
  (d.find? (fun kv => kv.1 == k)).map (fun kv => kv.2)

/-- One entry of `rules["ranges"]`; `stop` renders the source's `end` key. -/
structure RangeRule where
  start : Option String
  stop : Option String
  «alias» : Option String
deriving DecidableEq

/-- The rule set read from `data/pincode_rules.json`; `prefixMap` renders the
source's `prefix` key, as an association list in iteration order. -/
structure Rules where
  exact : List (String × String)
  prefixMap : List (String × String)
  ranges : List RangeRule
deriving DecidableEq

/-- The prefix scan of `alias_from_rules` (lines 148-152): keep the longest
matching rule key, first-seen winning ties. -/
def bestPrefixRule (pincode : String) (pm : List (String × String)) :
    Option (String × String) :=
  pm.foldl
    (fun best pv =>
      if startswith pincode pv.1 then
        match best with
        | none => some pv
        | some b => if b.1.data.length < pv.1.data.length then some pv else some b
      else best)
    none

/-- The range scan of `alias_from_rules` (lines 157-162): first rule whose
`start`, `end` and stripped alias are all truthy and whose bounds enclose the
pincode. -/
def rangeAlias (pincode : String) : List RangeRule → Option String
  | [] => none
  | r :: rest =>
    let s := r.start.getD ""
    let e := r.stop.getD ""
    let a := pyStrip (r.«alias».getD "")
    if s ≠ "" ∧ e ≠ "" ∧ a ≠ "" ∧ pyLe s pincode = true ∧ pyLe pincode e = true then some a
    else rangeAlias pincode rest

/-- `alias_from_rules(pincode, rules)` (lines 139-162). -/
def alias_from_rules (pincode : String) (rules : Rules) : Option String :=
  if pincode = "" then none
  else
    match lookupDict rules.exact pincode with
    | some v =>
      let a := pyStrip v
      if a = "" then none else some a
    | none =>
      match bestPrefixRule pincode rules.prefixMap with
      | some b =>
        let a := pyStrip b.2
        if a ≠ "" then some a else rangeAlias pincode rules.ranges
      | none => rangeAlias pincode rules.ranges

/-- The example rule set of the specification. -/
def rulesEx : Rules :=
  { exact := [("110001", "A")]
    prefixMap := [("11", "B"), ("110", "C")]
    ranges := [] }

/-- `RETRIES_API = 4`. -/
def RETRIES_API : Nat := 4

/-- `with_retries(fn, tries)` starting at a given attempt number: return the
first success among the remaining attempts, else the last error. -/
def retryFrom {α : Type} (fn : Nat → Except String α) (attempt : Nat) :
    Nat → Except String α
  | 0 => Except.error "with_retries: no attempts"
  | 1 => fn attempt
  | Nat.succ (Nat.succ k) =>
    match fn attempt with
    | Except.ok v => Except.ok v
    | Except.error _ => retryFrom fn (attempt + 1) (Nat.succ k)

/-- `with_retries(fn, tries)` (lines 113-123), with the outcome of attempt
`i` given by `fn i`. -/
def with_retries {α : Type} (fn : Nat → Except String α) (tries : Nat) :
    Except String α :=
  retryFrom fn 1 tries

/-- The response payload fields the pipeline reads: the `data` record list
and the `paging` numbers. -/
structure Payload where
  data : List ProductRecord
  pagingLimit : Nat
  pagingStart : Nat
  pagingCount : Nat
  pagingTotal : Nat
deriving DecidableEq

/-- The records contributed by one alias on the per-alias fallback path:
`data.get("data") or []` of its retried request, or nothing if every retry
failed. -/
def perAliasRecords (perAlias : String → Nat → Except String Payload) (a : String) :
    List ProductRecord :=
  match with_retries (perAlias a) RETRIES_API with
  | Except.ok p => p.data
  | Except.error _ => []

/-- `fetch_by_aliases(session, aliases)` (lines 266-300).  `combined i` is
the outcome of the `i`-th attempt of the combined batched request, and
`perAlias a i` the outcome of the `i`-th attempt of the request for the
single alias `a`. -/
def fetch_by_aliases (combined : Nat → Except String Payload)
    (perAlias : String → Nat → Except String Payload)
    (aliases : List String) : Except String Payload :=
  match aliases with
  | [] =>
    Except.ok { data := [], pagingLimit := 0, pagingStart := 0, pagingCount := 0, pagingTotal := 0 }
  | _ :: _ =>
    match with_retries combined RETRIES_API with
    | Except.ok p => Except.ok p
    | Except.error lastErr =>
      let bucket := aliases.foldl (fun acc a => acc ++ perAliasRecords perAlias a) []
      let anySuccess := aliases.any (fun a => (with_retries (perAlias a) RETRIES_API).isOk)
      if anySuccess then
        Except.ok
          { data := bucket
            pagingLimit := aliases.length
            pagingStart := 0
            pagingCount := bucket.length
            pagingTotal := bucket.length }
      else Except.error ("All fetch attempts failed. Last error: " ++ lastErr)

/-- `PINCODE and PINCODE.isdigit() and len(PINCODE) == 6` (main, line 392). -/
def validPincode (p : String) : Bool :=
  !(p == "") && p.data.all Char.isDigit && (p.data.length == 6)

/-- `save_state(state)` (lines 329-336): the outcome of the filesystem write
is `writeResult`; every exception from it is caught inside and only logged,
so the caller always observes a normal return. -/
def save_state (writeResult : Except String Unit) : Except String Unit :=
  match writeResult with
  | Except.ok u => Except.ok u
  | Except.error _ => Except.ok ()

/-- A concrete fetched record: tracked item `x`, currently available. -/
def recX : ProductRecord :=
  { «alias» := some "x", name := none, available := some (JVal.bool true)
    inventory_quantity := none, our_price := none, price := none }

/-- A concrete snapshot recording unavailability. -/
def snapFalse : Snapshot :=
  { available := some (JVal.bool false), inventory_quantity := none
    our_price := none, price := none }

/-- A concrete empty run state (nothing tracked yet). -/
def st0X : RunState := { tracked := fun _ => none, history := [], alertKeys := [] }

/-- A concrete run state in which `x` was last seen unavailable. -/
def stPrevX : RunState :=
  { tracked := fun k => if k = "x" then some snapFalse else none
    history := [], alertKeys := [] }

/-- A concrete successful response payload. -/
def payloadA : Payload :=
  { data := [recX], pagingLimit := 1, pagingStart := 0, pagingCount := 1, pagingTotal := 1 }

/-- A combined-request oracle that fails on every attempt. -/
def combinedFail : Nat → Except String Payload := fun _ => Except.error "down"

/-- A per-alias oracle succeeding for `a` only. -/
def perAliasW : String → Nat → Except String Payload :=
  fun a _ => if a = "a" then Except.ok payloadA else Except.error "bad"

/-- The observable outcome of one invocation of `main`. -/
structure RunOutcome where
  exitCode : Nat
  saveAttempted : Bool
  summaryWritten : Bool
  notified : Bool
  finalState : RunState

/-- `main()` (lines 387-515) with its effects made explicit: `bootstrap` is
the outcome of the session-init stage, `fetchRes` the outcome of
`fetch_by_aliases`, `writeResult` the outcome of the state-file write inside
`save_state`, and `summaryConfigured` whether a job-summary path is set. -/
def mainRun (targetAliases : List String) (pincode : String)
    (bootstrap : Except String Unit) (fetchRes : Except String Payload)
    (force : Bool) (st0 : RunState) (writeResult : Except String Unit)
    (summaryConfigured : Bool) : RunOutcome :=
  if targetAliases.isEmpty then
    { exitCode := 1, saveAttempted := false, summaryWritten := false, notified := false
      finalState := st0 }
  else if !validPincode pincode then
    { exitCode := 1, saveAttempted := false, summaryWritten := false, notified := false
      finalState := st0 }
  else
    match bootstrap with
    | Except.error _ =>
      { exitCode := 0, saveAttempted := false, summaryWritten := false, notified := false
        finalState := st0 }
    | Except.ok _ =>
      match fetchRes with
      | Except.error _ =>
        { exitCode := 0, saveAttempted := false, summaryWritten := false, notified := false
          finalState := st0 }
      | Except.ok payload =>
        let res := runLoop force targetAliases payload.data st0
        match save_state writeResult with
        | Except.error _ =>
          { exitCode := 1, saveAttempted := true, summaryWritten := false, notified := false
            finalState := res }
        | Except.ok _ =>
          { exitCode := 0, saveAttempted := true, summaryWritten := summaryConfigured
            notified := !res.alertKeys.isEmpty, finalState := res }

/-! ## Theorems -/

theorem getLast?_some_mem {α : Type} {l : List α} {x : α} (h : l.getLast? = some x) :
    x ∈ l := by
  obtain ⟨hne, hx⟩ := List.mem_getLast?_eq_getLast (l := l) (x := x) h
  exact hx ▸ List.getLast_mem hne

theorem byAlias_recordKey {items : List ProductRecord} {key : String} {cur : ProductRecord}
    (h : byAlias items key = some cur) : recordKey cur = key := by
  have hmem : cur ∈ items.filter (fun p => recordKey p == key) := getLast?_some_mem h
  have hp := (List.mem_filter.mp hmem).2
  simpa using hp

/-- C1: in availability-only mode (no force flag), the alert decision is true
iff the current availability is truthy and the previous snapshot's
availability (missing snapshot reading as absent, hence falsy) is falsy; on
first observation of a key the alert fires exactly when current availability
is truthy. -/
theorem c1_availability_alert_decision (prev : Option Snapshot) (cur : ProductRecord) :
    (do_alert false prev cur = true ↔
      (truthy cur.available = true ∧ truthy (snapAvailable prev) = false)) ∧
    (do_alert false none cur = true ↔ truthy cur.available = true) := by
  constructor
  · simp [do_alert, should_alert_availability]
  · simp [do_alert, should_alert_availability, snapAvailable, truthy]

/-- C5: the region resolver evaluates exact rules first (a nonblank exact
match is returned whatever the other rules say), then longest prefix, then
ranges, and returns `none` when no rule matches; on the specification's
example rule set, `"110001"` resolves to `"A"` and `"110099"` to `"C"`. -/
theorem c5_region_resolver_precedence :
    alias_from_rules "110001" rulesEx = some "A" ∧
    alias_from_rules "110099" rulesEx = some "C" ∧
    (∀ pincode rules v, pincode ≠ "" → lookupDict rules.exact pincode = some v →
      pyStrip v ≠ "" → alias_from_rules pincode rules = some (pyStrip v)) ∧
    (∀ pincode rules, pincode ≠ "" → lookupDict rules.exact pincode = none →
      bestPrefixRule pincode rules.prefixMap = none →
      rangeAlias pincode rules.ranges = none →
      alias_from_rules pincode rules = none) := by
  refine ⟨by decide, by decide, ?_, ?_⟩
  · intro pincode rules v hp hl hs
    simp [alias_from_rules, hp, hl, hs]
  · intro pincode rules hp hl hb hr
    simp [alias_from_rules, hp, hl, hb, hr]

theorem c5_region_resolver_precedence_witness :
    alias_from_rules "110001" rulesEx = some (pyStrip "A") ∧
    alias_from_rules "999999" rulesEx = none :=
  ⟨c5_region_resolver_precedence.2.2.1 "110001" rulesEx "A" (by decide) (by decide) (by decide),
   c5_region_resolver_precedence.2.2.2 "999999" rulesEx (by decide) (by decide) (by decide)
     (by decide)⟩

theorem updateTracked_self (t : String → Option Snapshot) (k : String) (v : Snapshot) :
    updateTracked t k v k = some v := by
  simp [updateTracked]

theorem updateTracked_other (t : String → Option Snapshot) (k : String) (v : Snapshot)
    {x : String} (h : x ≠ k) : updateTracked t k v x = t x := by
  simp [updateTracked, h]

theorem runLoop_nil (force : Bool) (items : List ProductRecord) (st : RunState) :
    runLoop force [] items st = st := rfl

theorem runLoop_cons (force : Bool) (a : String) (rest : List String)
    (items : List ProductRecord) (st : RunState) :
    runLoop force (a :: rest) items st =
      runLoop force rest items (processAlias force items st a) := rfl

theorem processAlias_absent {force : Bool} {items : List ProductRecord} {st : RunState}
    {a : String} (h : byAlias items (normKey a) = none) :
    processAlias force items st a = st := by
  simp [processAlias, h]

theorem processAlias_tracked (force : Bool) (items : List ProductRecord) (st : RunState)
    (a : String) :
    (processAlias force items st a).tracked =
      match byAlias items (normKey a) with
      | none => st.tracked
      | some cur => updateTracked st.tracked (normKey a) (curSnapshot cur) := by
  cases hb : byAlias items (normKey a) with
  | none => simp [processAlias, hb]
  | some cur =>
    simp only [processAlias, hb]
    split <;> rfl

theorem processAlias_history (force : Bool) (items : List ProductRecord) (st : RunState)
    (a : String) :
    (processAlias force items st a).history =
      match byAlias items (normKey a) with
      | none => st.history
      | some cur =>
        if do_alert force (st.tracked (normKey a)) cur then
          st.history ++ [mkHistoryEntry force (st.tracked (normKey a)) cur]
        else st.history := by
  cases hb : byAlias items (normKey a) with
  | none => simp [processAlias, hb]
  | some cur =>
    simp only [processAlias, hb]
    split <;> rfl

theorem processAlias_alertKeys (force : Bool) (items : List ProductRecord) (st : RunState)
    (a : String) :
    (processAlias force items st a).alertKeys =
      match byAlias items (normKey a) with
      | none => st.alertKeys
      | some cur =>
        if do_alert force (st.tracked (normKey a)) cur then st.alertKeys ++ [normKey a]
        else st.alertKeys := by
  cases hb : byAlias items (normKey a) with
  | none => simp [processAlias, hb]
  | some cur =>
    simp only [processAlias, hb]
    split <;> rfl

theorem runLoop_tracked_stable (force : Bool) (items : List ProductRecord) {k : String}
    {cur : ProductRecord} (hk : byAlias items k = some cur) (aliases : List String) :
    ∀ st : RunState, st.tracked k = some (curSnapshot cur) →
      (runLoop force aliases items st).tracked k = some (curSnapshot cur) := by
  induction aliases with
  | nil => intro st h; exact h
  | cons a rest ih =>
    intro st h
    rw [runLoop_cons]
    apply ih
    rw [processAlias_tracked]
    cases hb : byAlias items (normKey a) with
    | none => exact h
    | some cur2 =>
      simp only []
      by_cases hx : k = normKey a
      · subst hx
        rw [hb] at hk
        cases hk
        exact updateTracked_self _ _ _
      · rw [updateTracked_other _ _ _ hx]
        exact h

theorem runLoop_tracked_present (force : Bool) (items : List ProductRecord)
    (aliases : List String) :
    ∀ (st : RunState) (a : String), a ∈ aliases →
      ∀ cur : ProductRecord, byAlias items (normKey a) = some cur →
        (runLoop force aliases items st).tracked (normKey a) = some (curSnapshot cur) := by
  induction aliases with
  | nil => intro st a ha; cases ha
  | cons b rest ih =>
    intro st a ha cur hcur
    rw [runLoop_cons]
    rcases List.mem_cons.mp ha with rfl | hmem
    · apply runLoop_tracked_stable force items hcur
      rw [processAlias_tracked]
      simp only [hcur]
      exact updateTracked_self _ _ _
    · exact ih _ a hmem cur hcur

/-- C3: every tracked key present in the fetch result has its stored snapshot
overwritten with the current record's field values by the end of the run,
whatever the force flag, the initial state, and the alert outcomes. -/
theorem c3_snapshot_overwritten_unconditionally (force : Bool) (aliases : List String)
    (items : List ProductRecord) (st0 : RunState) (a : String) (cur : ProductRecord)
    (ha : a ∈ aliases) (hcur : byAlias items (normKey a) = some cur) :
    (runLoop force aliases items st0).tracked (normKey a) = some (curSnapshot cur) :=
  runLoop_tracked_present force items aliases st0 a ha cur hcur

theorem c3_snapshot_overwritten_unconditionally_witness :
    (runLoop false ["x"] [recX] stPrevX).tracked (normKey "x") = some (curSnapshot recX) :=
  c3_snapshot_overwritten_unconditionally false ["x"] [recX] stPrevX "x" recX
    (by decide) (by decide)

theorem entryKey_mkHistoryEntry (force : Bool) (prev : Option Snapshot)
    (cur : ProductRecord) : entryKey (mkHistoryEntry force prev cur) = recordKey cur := rfl

theorem processAlias_absent_frame (force : Bool) (items : List ProductRecord) (st : RunState)
    (b : String) {k : String} (habs : byAlias items k = none) :
    (processAlias force items st b).tracked k = st.tracked k ∧
    (processAlias force items st b).alertKeys.count k = st.alertKeys.count k ∧
    ((processAlias force items st b).history.filter (fun e => entryKey e == k)).length =
      (st.history.filter (fun e => entryKey e == k)).length := by
  cases hb : byAlias items (normKey b) with
  | none => rw [processAlias_absent hb]; exact ⟨rfl, rfl, rfl⟩
  | some cur =>
    have hk : k ≠ normKey b := by
      intro h
      rw [h, hb] at habs
      cases habs
    have hck : recordKey cur = normKey b := byAlias_recordKey hb
    refine ⟨?_, ?_, ?_⟩
    · rw [processAlias_tracked]
      simp only [hb]
      exact updateTracked_other _ _ _ hk
    · rw [processAlias_alertKeys]
      simp only [hb]
      split
      · simp [List.count_append, List.count_cons, Ne.symm hk]
      · rfl
    · rw [processAlias_history]
      simp only [hb]
      split
      · have : entryKey (mkHistoryEntry force (st.tracked (normKey b)) cur) ≠ k := by
          rw [entryKey_mkHistoryEntry, hck]
          exact Ne.symm hk
        simp [List.filter_append, this]
      · rfl

theorem runLoop_absent_frame (force : Bool) (items : List ProductRecord) {k : String}
    (habs : byAlias items k = none) (aliases : List String) :
    ∀ st : RunState,
      (runLoop force aliases items st).tracked k = st.tracked k ∧
      (runLoop force aliases items st).alertKeys.count k = st.alertKeys.count k ∧
      ((runLoop force aliases items st).history.filter (fun e => entryKey e == k)).length =
        (st.history.filter (fun e => entryKey e == k)).length := by
  induction aliases with
  | nil => intro st; exact ⟨rfl, rfl, rfl⟩
  | cons b rest ih =>
    intro st
    rw [runLoop_cons]
    obtain ⟨h1, h2, h3⟩ := ih (processAlias force items st b)
    obtain ⟨g1, g2, g3⟩ := processAlias_absent_frame force items st b habs
    exact ⟨h1.trans g1, h2.trans g2, h3.trans g3⟩

/-- C4: a tracked key requested but absent from the fetch result is skipped
for the run: its stored snapshot is unchanged, no alert is accumulated for
it, and no history entry for it is appended. -/
theorem c4_absent_key_skipped (force : Bool) (aliases : List String)
    (items : List ProductRecord) (st0 : RunState) (a : String)
    (_ha : a ∈ aliases) (habs : byAlias items (normKey a) = none) :
    (runLoop force aliases items st0).tracked (normKey a) = st0.tracked (normKey a) ∧
    (runLoop force aliases items st0).alertKeys.count (normKey a) =
      st0.alertKeys.count (normKey a) ∧
    ((runLoop force aliases items st0).history.filter
        (fun e => entryKey e == normKey a)).length =
      (st0.history.filter (fun e => entryKey e == normKey a)).length :=
  runLoop_absent_frame force items habs aliases st0

theorem c4_absent_key_skipped_witness :
    (runLoop false ["y"] [recX] stPrevX).tracked (normKey "y") =
      stPrevX.tracked (normKey "y") ∧
    (runLoop false ["y"] [recX] stPrevX).alertKeys.count (normKey "y") =
      stPrevX.alertKeys.count (normKey "y") ∧
    ((runLoop false ["y"] [recX] stPrevX).history.filter
        (fun e => entryKey e == normKey "y")).length =
      (stPrevX.history.filter (fun e => entryKey e == normKey "y")).length :=
  c4_absent_key_skipped false ["y"] [recX] stPrevX "y" (by decide) (by decide)

theorem processAlias_settled (items : List ProductRecord) (st : RunState) (a : String)
    (hs : ∀ cur : ProductRecord, byAlias items (normKey a) = some cur →
      st.tracked (normKey a) = some (curSnapshot cur)) :
    processAlias false items st a = st := by
  cases hb : byAlias items (normKey a) with
  | none => exact processAlias_absent hb
  | some cur =>
    have hprev := hs cur hb
    have hd : do_alert false (st.tracked (normKey a)) cur = false := by
      rw [hprev]
      simp [do_alert, should_alert_availability, snapAvailable, curSnapshot]
    simp only [processAlias, hb]
    split
    · rename_i hcond
      rw [hd] at hcond
      cases hcond
    · obtain ⟨t, h, ak⟩ := st
      congr 1
      funext x
      by_cases hx : x = normKey a
      · subst hx
        rw [updateTracked_self]
        exact hprev.symm
      · exact updateTracked_other _ _ _ hx

theorem runLoop_settled (items : List ProductRecord) (aliases : List String) :
    ∀ st : RunState,
      (∀ a ∈ aliases, ∀ cur : ProductRecord, byAlias items (normKey a) = some cur →
        st.tracked (normKey a) = some (curSnapshot cur)) →
      runLoop false aliases items st = st := by
  induction aliases with
  | nil => intro st _; rfl
  | cons b rest ih =>
    intro st hs
    rw [runLoop_cons]
    have hb : processAlias false items st b = st :=
      processAlias_settled items st b (fun cur h => hs b (List.mem_cons_self b rest) cur h)
    rw [hb]
    exact ih st (fun a ha cur h => hs a (List.mem_cons_of_mem b ha) cur h)

/-- C7: with the force flag off, a second run of the poll loop over identical
fetched data leaves every stored snapshot equal to its value after the first
run and appends no history entries. -/
theorem c7_second_identical_run_is_noop (aliases : List String)
    (items : List ProductRecord) (st0 : RunState) :
    (∀ k, (runLoop false aliases items (runLoop false aliases items st0)).tracked k =
      (runLoop false aliases items st0).tracked k) ∧
    (runLoop false aliases items (runLoop false aliases items st0)).history =
      (runLoop false aliases items st0).history := by
  have h : runLoop false aliases items (runLoop false aliases items st0) =
      runLoop false aliases items st0 :=
    runLoop_settled items aliases _ (fun a ha cur hcur =>
      runLoop_tracked_present false items aliases st0 a ha cur hcur)
  exact ⟨fun k => by rw [h], by rw [h]⟩

theorem runLoop_force_char (items : List ProductRecord) (aliases : List String) :
    ∀ st : RunState, (aliases.map normKey).Nodup →
      (runLoop true aliases items st).alertKeys =
        st.alertKeys ++ (presentAliases aliases items).map normKey ∧
      (runLoop true aliases items st).history =
        st.history ++ aliases.filterMap (fun a =>
          (byAlias items (normKey a)).map (fun cur =>
            mkHistoryEntry true (st.tracked (normKey a)) cur)) := by
  induction aliases with
  | nil =>
    intro st _
    exact ⟨by simp [runLoop_nil, presentAliases], by simp [runLoop_nil]⟩
  | cons b rest ih =>
    intro st hnd
    rw [List.map_cons, List.nodup_cons] at hnd
    have hnotin : normKey b ∉ rest.map normKey := hnd.1
    rw [runLoop_cons]
    cases hb : byAlias items (normKey b) with
    | none =>
      rw [processAlias_absent hb]
      obtain ⟨hak, hh⟩ := ih st hnd.2
      have hp : presentAliases (b :: rest) items = presentAliases rest items := by
        simp [presentAliases, List.filter_cons, hb]
      have hf : (b :: rest).filterMap (fun a => (byAlias items (normKey a)).map (fun cur =>
          mkHistoryEntry true (st.tracked (normKey a)) cur)) =
          rest.filterMap (fun a => (byAlias items (normKey a)).map (fun cur =>
            mkHistoryEntry true (st.tracked (normKey a)) cur)) := by
        simp [List.filterMap_cons, hb]
      rw [hp, hf]
      exact ⟨hak, hh⟩
    | some cur =>
      have hd : do_alert true (st.tracked (normKey b)) cur = true := by
        simp [do_alert]
      have h1 : (processAlias true items st b).alertKeys = st.alertKeys ++ [normKey b] := by
        rw [processAlias_alertKeys]
        simp only [hb, hd, if_true]
      have h2 : (processAlias true items st b).history =
          st.history ++ [mkHistoryEntry true (st.tracked (normKey b)) cur] := by
        rw [processAlias_history]
        simp only [hb, hd, if_true]
      have h3 : ∀ a ∈ rest,
          (processAlias true items st b).tracked (normKey a) = st.tracked (normKey a) := by
        intro a ha
        rw [processAlias_tracked]
        simp only [hb]
        apply updateTracked_other
        intro hx
        exact hnotin (hx ▸ List.mem_map_of_mem normKey ha)
      obtain ⟨hak, hh⟩ := ih (processAlias true items st b) hnd.2
      have hp : presentAliases (b :: rest) items = b :: presentAliases rest items := by
        simp [presentAliases, List.filter_cons, hb]
      constructor
      · rw [hak, h1, hp, List.map_cons, List.append_assoc]
        rfl
      · have hcong : rest.filterMap (fun a => (byAlias items (normKey a)).map (fun cur =>
            mkHistoryEntry true ((processAlias true items st b).tracked (normKey a)) cur)) =
            rest.filterMap (fun a => (byAlias items (normKey a)).map (fun cur =>
              mkHistoryEntry true (st.tracked (normKey a)) cur)) := by
          apply List.filterMap_congr
          intro a ha
          rw [h3 a ha]
        have hf : (b :: rest).filterMap (fun a => (byAlias items (normKey a)).map (fun cur =>
            mkHistoryEntry true (st.tracked (normKey a)) cur)) =
            mkHistoryEntry true (st.tracked (normKey b)) cur ::
              rest.filterMap (fun a => (byAlias items (normKey a)).map (fun cur =>
                mkHistoryEntry true (st.tracked (normKey a)) cur)) := by
          simp [List.filterMap_cons, hb]
        rw [hh, h2, hcong, List.append_assoc, hf]
        rfl

/-- C2 (amended): when the force flag is set, a run produces exactly one alert
and one history entry for every tracked key present in the fetch result,
regardless of whether any field changed; the sentinel change description
appears in the history entry's change list exactly when the availability
predicate would not itself have fired (otherwise the availability message is
recorded instead). -/
theorem c2_forced_run_alerts (aliases : List String) (items : List ProductRecord)
    (st0 : RunState) (hnd : (aliases.map normKey).Nodup) (h0 : st0.alertKeys = []) :
    (runLoop true aliases items st0).alertKeys =
      (presentAliases aliases items).map normKey ∧
    (∀ a ∈ aliases, ∀ cur : ProductRecord, byAlias items (normKey a) = some cur →
      (runLoop true aliases items st0).alertKeys.count (normKey a) = 1) ∧
    (runLoop true aliases items st0).history =
      st0.history ++ aliases.filterMap (fun a =>
        (byAlias items (normKey a)).map (fun cur =>
          mkHistoryEntry true (st0.tracked (normKey a)) cur)) ∧
    (∀ a ∈ aliases, ∀ cur : ProductRecord, byAlias items (normKey a) = some cur →
      ("FORCE_ALERT" ∈ (mkHistoryEntry true (st0.tracked (normKey a)) cur).changes ↔
        should_alert_availability (st0.tracked (normKey a)) cur = false)) := by
  obtain ⟨hak, hh⟩ := runLoop_force_char items aliases st0 hnd
  rw [h0, List.nil_append] at hak
  refine ⟨hak, ?_, hh, ?_⟩
  · intro a ha cur hcur
    rw [hak]
    have hsub : ((presentAliases aliases items).map normKey).Nodup :=
      ((List.filter_sublist aliases).map normKey).nodup hnd
    have hmem : normKey a ∈ (presentAliases aliases items).map normKey := by
      apply List.mem_map_of_mem
      rw [presentAliases, List.mem_filter]
      exact ⟨ha, by rw [hcur]; rfl⟩
    exact List.count_eq_one_of_mem hsub hmem
  · intro a ha cur hcur
    cases hs : should_alert_availability (st0.tracked (normKey a)) cur <;>
      simp [mkHistoryEntry, change_text, hs]

theorem c2_forced_run_alerts_witness :
    (runLoop true ["x"] [recX] st0X).alertKeys.count (normKey "x") = 1 :=
  (c2_forced_run_alerts ["x"] [recX] st0X (by decide) rfl).2.1 "x" (by decide) recX
    (by decide)

/-- C2 counterexample: on a forced run in which the key also genuinely
transitioned to available, the single history entry's change list carries the
availability message, not the sentinel — refuting the claim that the sentinel
is present in every forced-run history entry. -/
theorem c2_forced_run_counterexample :
    (runLoop true ["x"] [recX] stPrevX).history.length = 1 ∧
    ∀ e ∈ (runLoop true ["x"] [recX] stPrevX).history, "FORCE_ALERT" ∉ e.changes := by
  decide

theorem retryFrom_isOk_false_iff {α : Type} (fn : Nat → Except String α) :
    ∀ n a : Nat, 1 ≤ n →
      ((retryFrom fn a n).isOk = false ↔
        ∀ i, a ≤ i → i < a + n → (fn i).isOk = false) := by
  intro n
  induction n with
  | zero => intro a h; omega
  | succ m ihm =>
    intro a _
    cases m with
    | zero =>
      constructor
      · intro h i hai hi
        have hia : i = a := by omega
        rw [hia]
        exact h
      · intro h
        exact h a (le_refl a) (by omega)
    | succ k =>
      have hunf : retryFrom fn a (k + 2) =
          match fn a with
          | Except.ok v => Except.ok v
          | Except.error _ => retryFrom fn (a + 1) (k + 1) := rfl
      rw [hunf]
      cases hfa : fn a with
      | ok v =>
        simp only [Except.isOk]
        constructor
        · intro h
          cases h
        · intro h
          have hx := h a (le_refl a) (by omega)
          rw [hfa] at hx
          cases hx
      | error e =>
        rw [ihm (a + 1) (by omega)]
        constructor
        · intro h i hai hilt
          by_cases hia : i = a
          · rw [hia, hfa]
            rfl
          · exact h i (by omega) (by omega)
        · intro h i hai hilt
          exact h i (by omega) (by omega)

theorem with_retries_isOk_false_iff {α : Type} (fn : Nat → Except String α) :
    (with_retries fn RETRIES_API).isOk = false ↔
      ∀ i, 1 ≤ i → i ≤ RETRIES_API → (fn i).isOk = false := by
  rw [with_retries, retryFrom_isOk_false_iff fn RETRIES_API 1 (by decide)]
  constructor
  · intro h i h1 h2
    exact h i h1 (by rw [RETRIES_API] at h2 ⊢; omega)
  · intro h i h1 h2
    exact h i h1 (by rw [RETRIES_API] at h2 ⊢; omega)

theorem foldl_append_records (g : String → List ProductRecord) (l : List String) :
    ∀ acc : List ProductRecord,
      l.foldl (fun acc a => acc ++ g a) acc = acc ++ (l.map g).flatten := by
  induction l with
  | nil => intro acc; simp
  | cons b rest ih => intro acc; simp [ih, List.append_assoc]

/-- C6: the per-key fallback runs only once the combined request has failed
on its whole retry budget; a combined success is returned as is; once the
combined tier is exhausted, if at least one per-key request succeeds the
result is the aggregate of exactly the records of the succeeding keys, and if
every per-key request fails the fetch raises a terminal error. -/
theorem c6_fetch_two_tier_fallback (combined : Nat → Except String Payload)
    (perAlias : String → Nat → Except String Payload)
    (aliases : List String) (hne : aliases ≠ []) :
    ((with_retries combined RETRIES_API).isOk = false ↔
      ∀ i, 1 ≤ i → i ≤ RETRIES_API → (combined i).isOk = false) ∧
    (∀ p : Payload, with_retries combined RETRIES_API = Except.ok p →
      fetch_by_aliases combined perAlias aliases = Except.ok p) ∧
    ((with_retries combined RETRIES_API).isOk = false →
      ((∃ a ∈ aliases, (with_retries (perAlias a) RETRIES_API).isOk = true) →
        ∃ p : Payload, fetch_by_aliases combined perAlias aliases = Except.ok p ∧
          p.data = (aliases.map (perAliasRecords perAlias)).flatten) ∧
      ((∀ a ∈ aliases, (with_retries (perAlias a) RETRIES_API).isOk = false) →
        ∃ msg : String, fetch_by_aliases combined perAlias aliases = Except.error msg)) := by
  obtain ⟨b, rest, rfl⟩ : ∃ b rest, aliases = b :: rest := by
    cases aliases with
    | nil => exact absurd rfl hne
    | cons b rest => exact ⟨b, rest, rfl⟩
  refine ⟨with_retries_isOk_false_iff combined, ?_, ?_⟩
  · intro p hp
    simp only [fetch_by_aliases, hp]
  · intro herr
    obtain ⟨e, he⟩ : ∃ e, with_retries combined RETRIES_API = Except.error e := by
      cases hc : with_retries combined RETRIES_API with
      | ok v => rw [hc] at herr; cases herr
      | error e => exact ⟨e, rfl⟩
    constructor
    · intro hex
      have hany : (b :: rest).any
          (fun a => (with_retries (perAlias a) RETRIES_API).isOk) = true :=
        List.any_eq_true.mpr hex
      have hfetch : fetch_by_aliases combined perAlias (b :: rest) =
          Except.ok
            { data := (b :: rest).foldl (fun acc a => acc ++ perAliasRecords perAlias a) []
              pagingLimit := (b :: rest).length
              pagingStart := 0
              pagingCount :=
                ((b :: rest).foldl (fun acc a => acc ++ perAliasRecords perAlias a) []).length
              pagingTotal :=
                ((b :: rest).foldl (fun acc a => acc ++ perAliasRecords perAlias a) []).length } := by
        simp only [fetch_by_aliases, he, hany, if_true]
      refine ⟨_, hfetch, ?_⟩
      rw [foldl_append_records (perAliasRecords perAlias) (b :: rest) [], List.nil_append]
    · intro hall
      have hany : (b :: rest).any
          (fun a => (with_retries (perAlias a) RETRIES_API).isOk) = false := by
        rw [List.any_eq_false]
        intro a ha
        rw [hall a ha]
        exact Bool.false_ne_true
      refine ⟨"All fetch attempts failed. Last error: " ++ e, ?_⟩
      simp only [fetch_by_aliases, he, hany, Bool.false_eq_true, if_false]

theorem c6_fetch_two_tier_fallback_witness :
    ∃ p : Payload, fetch_by_aliases combinedFail perAliasW ["a", "b"] = Except.ok p ∧
      p.data = (["a", "b"].map (perAliasRecords perAliasW)).flatten := by
  have h := c6_fetch_two_tier_fallback combinedFail perAliasW ["a", "b"] (by decide)
  exact (h.2.2 (by decide)).1 ⟨"a", by decide, by decide⟩

/-- C8: the process exit code is 0 for every run that passes the
configuration checks — whether an alert fired or not, and also when session
bootstrap or the fetch fails — and 1 exactly when no tracked alias is
configured or the postal code is missing/invalid, independently of every
network and filesystem outcome. -/
theorem c8_exit_codes (targetAliases : List String) (pincode : String)
    (bootstrap : Except String Unit) (fetchRes : Except String Payload)
    (force : Bool) (st0 : RunState) (writeResult : Except String Unit)
    (summaryConfigured : Bool) :
    (mainRun targetAliases pincode bootstrap fetchRes force st0 writeResult
        summaryConfigured).exitCode =
      if targetAliases.isEmpty || !validPincode pincode then 1 else 0 := by
  unfold mainRun
  by_cases h1 : targetAliases.isEmpty <;> by_cases h2 : validPincode pincode <;>
    simp only [h1, h2, Bool.not_true, Bool.not_false, Bool.true_or, Bool.false_or,
      Bool.or_true, Bool.or_false, if_true, if_false] <;>
    first
      | rfl
      | (cases bootstrap with
         | error e => rfl
         | ok u =>
           cases fetchRes with
           | error e => rfl
           | ok payload =>
             cases writeResult with
             | ok v => rfl
             | error e => rfl)

/-- C10: a failure of the state-file write is caught inside `save_state` and
never propagated: the run's outcome is identical to one whose write
succeeded — the job summary is still written when configured, notifications
are still dispatched when alerts accumulated, and the exit code is still 0. -/
theorem c10_save_failure_swallowed (targetAliases : List String) (pincode : String)
    (payload : Payload) (force : Bool) (st0 : RunState) (e : String)
    (summaryConfigured : Bool)
    (hta : targetAliases.isEmpty = false) (hpin : validPincode pincode = true) :
    save_state (Except.error e) = Except.ok () ∧
    mainRun targetAliases pincode (Except.ok ()) (Except.ok payload) force st0
        (Except.error e) summaryConfigured =
      mainRun targetAliases pincode (Except.ok ()) (Except.ok payload) force st0
        (Except.ok ()) summaryConfigured ∧
    (mainRun targetAliases pincode (Except.ok ()) (Except.ok payload) force st0
        (Except.error e) summaryConfigured).exitCode = 0 ∧
    (mainRun targetAliases pincode (Except.ok ()) (Except.ok payload) force st0
        (Except.error e) summaryConfigured).summaryWritten = summaryConfigured ∧
    (mainRun targetAliases pincode (Except.ok ()) (Except.ok payload) force st0
        (Except.error e) summaryConfigured).notified =
      !(runLoop force targetAliases payload.data st0).alertKeys.isEmpty := by
  refine ⟨rfl, ?_, ?_, ?_, ?_⟩ <;>
    simp [mainRun, save_state, hta, hpin]

theorem c10_save_failure_swallowed_witness :
    (mainRun ["x"] "110001" (Except.ok ()) (Except.ok payloadA) false st0X
        (Except.error "disk full") true).exitCode = 0 :=
  (c10_save_failure_swallowed ["x"] "110001" payloadA false st0X "disk full" true
    (by decide) (by decide)).2.2.1

/-- C9: a blank (empty or whitespace-only) exact-rule value for the queried
pincode makes the resolver return `none` at once, whatever the prefix and
range rules contain. -/
theorem c9_blank_exact_value_returns_none (pincode : String) (rules : Rules) (v : String)
    (hp : pincode ≠ "") (hl : lookupDict rules.exact pincode = some v)
    (hb : pyStrip v = "") :
    alias_from_rules pincode rules = none := by
  simp [alias_from_rules, hp, hl, hb]

theorem c9_blank_exact_value_returns_none_witness :
    alias_from_rules "110001"
        { exact := [("110001", " ")], prefixMap := [("11", "B")], ranges := [] } = none ∧
    bestPrefixRule "110001" [("11", "B")] = some ("11", "B") ∧ pyStrip "B" ≠ "" :=
  ⟨c9_blank_exact_value_returns_none "110001"
      { exact := [("110001", " ")], prefixMap := [("11", "B")], ranges := [] } " "
      (by decide) (by decide) (by decide),
   by decide, by decide⟩

end AmulWatch
